import Mathlib

/-!
Verification of the PR queue orchestrator of `aieng-bot-maintain`.

This file shallowly embeds the queue orchestrator:
  * the data model (`PRQueueItem`, `RepoQueue`, `QueueState`),
  * the queue manager (`is_timeout_approaching`, `process_repo_queue`),
  * the status poller (`check_pr_status`, `wait_for_checks_completion`),
  * the workflow client (`trigger_rebase`, `manual_rebase`),
  * the CLI entry fragment (`process_repo_queue_cli`).

External effects are made explicit: wall-clock observations, PR-processor
outcomes and command results are inputs (oracles); side effects (state
saves, queue advancement, issued commands, sleeps) are returned as traces.
`models.py`, `state_manager.py` and `pr_processor.py` are not part of the
source tree available here; the definitions that stand in for them are
modelled from the specification and marked as such in their doc comments.
-/

namespace BotMaintain

/-- Modelled from the spec: `PRStatus` (models.py is not in src/) — the
enumerated state of a queue item, spec §3. -/
inductive PRStatus
  | PENDING | REBASING | AWAITING_CHECKS | FIX_TRIGGERED | MERGING | DONE | FAILED
  deriving DecidableEq, Repr

/-- Modelled from the spec: `PRQueueItem` (models.py is not in src/) — one
queued pull request, spec §3: repository identifier, PR number, title,
bot author, processing status, retry counter. -/
structure PRQueueItem where
  repo : String
  pr_number : Nat
  pr_title : String
  pr_author : String
  status : PRStatus
  retry_count : Nat
  deriving DecidableEq, Repr

/-- Modelled from the spec: `RepoQueue` (models.py is not in src/) — ordered
sequence of PRQueueItem for one repository plus a cursor, spec §3. -/
structure RepoQueue where
  prs : List PRQueueItem
  current_index : Nat
  deriving DecidableEq, Repr

/-- Modelled from the spec: `is_complete()` holds iff
`current_index == len(prs)` (spec §3). -/
def RepoQueue.is_complete (q : RepoQueue) : Bool :=
  q.current_index == q.prs.length

/-- Modelled from the spec: fetch the current PR under the cursor; none when
the queue has no current PR (spec §4.5). -/
def RepoQueue.get_current_pr (q : RepoQueue) : Option PRQueueItem :=
  q.prs.get? q.current_index

/-- Modelled from the spec: move the cursor forward (spec §4.5). -/
def RepoQueue.advance (q : RepoQueue) : RepoQueue :=
  { q with current_index := q.current_index + 1 }

/-- Modelled from the spec: `QueueState` (models.py is not in src/) — the full
persisted snapshot for a run, spec §3.  The ISO-8601 deadline is embedded as
epoch seconds. -/
structure QueueState where
  workflow_run_id : String
  timeout_at : Int
  repo_queues : List (String × RepoQueue)
  completed_repos : List String
  deriving DecidableEq, Repr

/-- Association-list lookup embedding the `state.repo_queues.get(repo)`
dictionary access (keys are unique per spec §3). -/
def lookupQueue (repo : String) : List (String × RepoQueue) → Option RepoQueue
  | [] => none
  | (k, q) :: rest => if repo = k then some q else lookupQueue repo rest

/-- Functional rendering of the in-place mutation of the queue stored under
`repo` (keys are unique, so rewriting every matching key coincides with the
dictionary update). -/
def setQueue (repo : String) (q' : RepoQueue) :
    List (String × RepoQueue) → List (String × RepoQueue)
  | [] => []
  | (k, q) :: rest =>
    if repo = k then (k, q') :: setQueue repo q' rest
    else (k, q) :: setQueue repo q' rest

/-- State with the queue under `repo` replaced. -/
def set_repo_queue (state : QueueState) (repo : String) (q' : RepoQueue) : QueueState :=
  { state with repo_queues := setQueue repo q' state.repo_queues }

/-- `QueueManager.is_timeout_approaching` (queue_manager.py:61-78):
`remaining = (timeout - now).total_seconds() / 60; return remaining < 10`.
Over exact arithmetic, remaining minutes `< 10` iff remaining seconds `< 600`. -/
def is_timeout_approaching (now : Int) (state : QueueState) : Bool :=
  state.timeout_at - now < 600

/-- Observable side effects of `QueueManager.process_repo_queue`: a call to
the PR processor, a `save_state` of the given snapshot, a cursor advance. -/
inductive QMEvent
  | processPR (pr : PRQueueItem)
  | saveState (s : QueueState)
  | advance
  deriving DecidableEq, Repr

/-- Result of the `while` loop of `process_repo_queue`. -/
structure GoResult where
  events : List QMEvent
  completed : Option Bool
  state : QueueState
  queue : RepoQueue
  deriving DecidableEq, Repr

/-- Result of `process_repo_queue`. -/
structure QMOutcome where
  events : List QMEvent
  completed : Option Bool
  state : QueueState
  deriving DecidableEq, Repr

/-- The `while not queue.is_complete()` loop of
`QueueManager.process_repo_queue` (queue_manager.py:111-134).  Each loop
iteration consumes one oracle entry `(now, should_advance)`: the wall clock
observed by the timeout check and the verdict of the opaque
`pr_processor.process_pr` call.  `completed = none` marks oracle exhaustion
(the modelled run was cut short), never a behaviour of the code. -/
def process_repo_queue_go (repo : String) (oracle : List (Int × Bool))
    (state : QueueState) (q : RepoQueue) : GoResult :=
  match oracle with
  | [] => if q.is_complete then ⟨[], some true, state, q⟩ else ⟨[], none, state, q⟩
  | (now, should_advance) :: rest =>
    if q.is_complete then ⟨[], some true, state, q⟩
    else if is_timeout_approaching now state then
      -- timeout: save_state(state); return False   (queue_manager.py:113-116)
      ⟨[QMEvent.saveState state], some false, state, q⟩
    else
      match q.get_current_pr with
      | none => ⟨[], some true, state, q⟩   -- defensive break (queue_manager.py:118-120)
      | some pr =>
        -- process_pr(pr); save_state(state)        (queue_manager.py:123-126)
        if should_advance then
          let q1 := q.advance
          let state1 := set_repo_queue state repo q1
          let r := process_repo_queue_go repo rest state1 q1
          ⟨QMEvent.processPR pr :: QMEvent.saveState state :: QMEvent.advance :: r.events,
           r.completed, r.state, r.queue⟩
        else
          ⟨[QMEvent.processPR pr, QMEvent.saveState state], some false, state, q⟩

/-- `QueueManager.process_repo_queue` (queue_manager.py:80-138): missing queue
returns True untouched; on natural completion the repository is appended to
`completed_repos` and True is returned. -/
def process_repo_queue (repo : String) (oracle : List (Int × Bool))
    (state : QueueState) : QMOutcome :=
  match lookupQueue repo state.repo_queues with
  | none => ⟨[], some true, state⟩
  | some q =>
    let r := process_repo_queue_go repo oracle state q
    if r.completed = some true then
      ⟨r.events, some true,
        { r.state with completed_repos := r.state.completed_repos ++ [repo] }⟩
    else ⟨r.events, r.completed, r.state⟩

/-- Checks that in an event list every PR-processor call is immediately
followed by a state save. -/
def saved_after_every_process : List QMEvent → Bool
  | [] => true
  | QMEvent.processPR _ :: tail =>
    (match tail with
     | QMEvent.saveState _ :: _ => true
     | _ => false) && saved_after_every_process tail
  | _ :: tail => saved_after_every_process tail

/-- The §3 invariant check: every name in `completed_repos` maps to a queue
whose `is_complete()` holds. -/
def completedInvariantB (s : QueueState) : Bool :=
  s.completed_repos.all fun r =>
    match lookupQueue r s.repo_queues with
    | some q => q.is_complete
    | none => false

/-! ### Status poller (status_poller.py) -/

/-- One entry of a parsed `statusCheckRollup`: the fields read by the code via
`check.get(...)` (absent/null keys are `none`). -/
structure CheckRun where
  name : Option String
  conclusion : Option String
  status : Option String
  deriving DecidableEq, Repr

/-- One parsed reply of `gh pr view --json statusCheckRollup,mergeable`
(status_poller.py:98-111): both fields may be null/absent. -/
structure PRStatusObs where
  statusCheckRollup : Option (List CheckRun)
  mergeable : Option String
  deriving DecidableEq, Repr

/-- `status_data.get("statusCheckRollup") or []` (status_poller.py:114) —
null (and the falsy empty list) collapse to `[]`. -/
def obsRollup (o : PRStatusObs) : List CheckRun :=
  o.statusCheckRollup.getD []

/-- `status_data.get("mergeable", "UNKNOWN")` (status_poller.py:124). -/
def obsMergeable (o : PRStatusObs) : String :=
  o.mergeable.getD "UNKNOWN"

/-- The orchestrator's own check, excluded from `all_passed`
(status_poller.py:118). -/
def monitor_check_name : String := "Monitor Organization Bot PRs"

/-- `conclusion in ["SUCCESS", "NEUTRAL", "SKIPPED", None]`
(status_poller.py:116). -/
def goodConclusion (c : Option String) : Bool :=
  c == some "SUCCESS" || c == some "NEUTRAL" || c == some "SKIPPED" || c == none

/-- `all_passed` computation (status_poller.py:115-119): every check whose
name differs from the monitor check has a passing/neutral/skipped/null
conclusion. -/
def computeAllPassed (rollup : List CheckRun) : Bool :=
  (rollup.filter fun ch => ch.name != some monitor_check_name).all
    fun ch => goodConclusion ch.conclusion

/-- `has_failures` computation (status_poller.py:122): any check concluded
FAILURE (the monitor check is *not* excluded here). -/
def computeHasFailures (rollup : List CheckRun) : Bool :=
  rollup.any fun ch => ch.conclusion == some "FAILURE"

/-- Observable actions of the poller: sleeping for a number of seconds, and
querying the PR status on a given attempt. -/
inductive PollAct
  | sleep (secs : Nat)
  | query (attempt : Nat)
  deriving DecidableEq, Repr

/-- `max_retries = 5` (status_poller.py:92). -/
def max_retries : Nat := 5

/-- `retry_delay = 10` (status_poller.py:93). -/
def retry_delay : Nat := 10

/-- The `for attempt in range(1, max_retries + 1)` loop of
`StatusPoller.check_pr_status` (status_poller.py:95-140).  `obs i` is the
parsed reply of the status query on attempt `i`.  Returns the action trace
and `(all_passed, has_failures, mergeable)`. -/
def check_pr_status_go (obs : Nat → PRStatusObs) (attempt : Nat) :
    List PollAct × (Bool × Bool × String) :=
  if obsMergeable (obs attempt) ≠ "UNKNOWN" then
    -- return all_passed, has_failures, mergeable   (status_poller.py:131-132)
    ([PollAct.query attempt],
      (computeAllPassed (obsRollup (obs attempt)),
       computeHasFailures (obsRollup (obs attempt)),
       obsMergeable (obs attempt)))
  else if h : attempt < max_retries then
    -- time.sleep(retry_delay * attempt)            (status_poller.py:134-137)
    (PollAct.query attempt ::
       PollAct.sleep (retry_delay * attempt) :: (check_pr_status_go obs (attempt + 1)).1,
     (check_pr_status_go obs (attempt + 1)).2)
  else
    -- exhausted: return all_passed, has_failures, "UNKNOWN"  (status_poller.py:139-140)
    ([PollAct.query attempt],
      (computeAllPassed (obsRollup (obs attempt)),
       computeHasFailures (obsRollup (obs attempt)),
       "UNKNOWN"))
  termination_by max_retries - attempt
  decreasing_by omega

/-- `StatusPoller.check_pr_status` (status_poller.py:69-140): a fixed 15s
warm-up sleep, then the retry loop starting at attempt 1. -/
def check_pr_status (obs : Nat → PRStatusObs) :
    List PollAct × (Bool × Bool × String) :=
  (PollAct.sleep 15 :: (check_pr_status_go obs 1).1, (check_pr_status_go obs 1).2)

/-- `CheckStatus` (status_poller.py:10). -/
inductive CheckStatus
  | COMPLETED | FAILED | RUNNING | NO_CHECKS
  deriving DecidableEq, Repr

/-- `check.get("conclusion") is None or check.get("status") in
["IN_PROGRESS", "QUEUED", "PENDING"]` (status_poller.py:197-201). -/
def anyRunningCheck (rollup : List CheckRun) : Bool :=
  rollup.any fun c =>
    c.conclusion == none ||
      (c.status == some "IN_PROGRESS" || c.status == some "QUEUED" ||
        c.status == some "PENDING")

/-- `any(check.get("conclusion") == "FAILURE" ...)` (status_poller.py:203). -/
def anyFailedCheck (rollup : List CheckRun) : Bool :=
  rollup.any fun c => c.conclusion == some "FAILURE"

/-- `check_interval = 30` (status_poller.py:165). -/
def check_interval : Nat := 30

/-- The `for attempt in range(1, max_attempts + 1)` loop of
`StatusPoller.wait_for_checks_completion` (status_poller.py:170-216).
`obs i` is the parsed `statusCheckRollup` field observed on attempt `i`
(`none` for null).  Falling off the loop returns RUNNING. -/
def wait_for_checks_loop (obs : Nat → Option (List CheckRun))
    (max_attempts : Nat) (attempt : Nat) : CheckStatus :=
  if h : attempt ≤ max_attempts then
    if ((obs attempt).getD []).isEmpty then
      -- `if not rollup:` — empty after more than 2 attempts ⇒ NO_CHECKS
      if attempt > 2 then CheckStatus.NO_CHECKS
      else wait_for_checks_loop obs max_attempts (attempt + 1)
    else
      if anyRunningCheck ((obs attempt).getD []) then
        wait_for_checks_loop obs max_attempts (attempt + 1)
      else if anyFailedCheck ((obs attempt).getD []) then CheckStatus.FAILED
      else CheckStatus.COMPLETED
  else CheckStatus.RUNNING
  termination_by max_attempts + 1 - attempt
  decreasing_by all_goals omega

/-- `StatusPoller.wait_for_checks_completion` (status_poller.py:142-216):
polls every 30s with `max_attempts = timeout_minutes * 60 // 30`. -/
def wait_for_checks_completion (obs : Nat → Option (List CheckRun))
    (timeout_minutes : Nat) : CheckStatus :=
  wait_for_checks_loop obs (timeout_minutes * 60 / check_interval) 1

/-! ### Workflow client (workflow_client.py) -/

/-- Outcome environment for external commands: `run cmd` is the stdout when
the subprocess exits 0, `none` when it raises `CalledProcessError`;
`parseRefs` stands for `json.loads` plus extraction of
`headRefName`/`baseRefName` (none when parsing/keys fail, which the code
catches as a generic exception). -/
structure GhEnv where
  run : List String → Option String
  parseRefs : String → Option (String × String)

/-- The `gh pr comment ... --body "@dependabot rebase"` command issued for
Dependabot PRs (workflow_client.py:180-191). -/
def dependabotRebaseCmd (pr : PRQueueItem) : List String :=
  ["gh", "pr", "comment", toString pr.pr_number, "--repo", pr.repo,
   "--body", "@dependabot rebase"]

/-- The `gh pr view --json headRefName,baseRefName` command of the manual
rebase (workflow_client.py:225-236). -/
def viewRefsCmd (pr : PRQueueItem) : List String :=
  ["gh", "pr", "view", toString pr.pr_number, "--repo", pr.repo,
   "--json", "headRefName,baseRefName"]

/-- The git/gh command sequence of the manual rebase after the refs are
known (workflow_client.py:253-353): clone, two identity configs, credential
config, token remote, fetch head, checkout, fetch base, rebase, lease-guarded
force push. -/
def manualRebaseCmds (gh_token : String) (pr : PRQueueItem)
    (head_ref base_ref : String) : List (List String) :=
  [["gh", "repo", "clone", pr.repo, "repo", "--", "--depth=50"],
   ["git", "config", "user.name", "aieng-bot-maintain[bot]"],
   ["git", "config", "user.email", "aieng-bot@vectorinstitute.ai"],
   ["git", "config", "credential.helper", "store --file=/dev/null"],
   ["git", "remote", "set-url", "origin",
    "https://x-access-token:" ++ gh_token ++ "@github.com/" ++ pr.repo ++ ".git"],
   ["git", "fetch", "origin", head_ref ++ ":" ++ head_ref],
   ["git", "checkout", head_ref],
   ["git", "fetch", "origin", base_ref],
   ["git", "rebase", "origin/" ++ base_ref],
   ["git", "push", "--force-with-lease", "origin", head_ref]]

/-- Run commands in order, stopping at the first failure (each
`subprocess.run(..., check=True)` raises on failure and the surrounding
`try` returns False).  Returns the issued prefix and overall success. -/
def runCmdSeq (env : GhEnv) : List (List String) → List (List String) × Bool
  | [] => ([], true)
  | c :: rest =>
    match env.run c with
    | none => ([c], false)
    | some _ =>
      let r := runCmdSeq env rest
      (c :: r.1, r.2)

/-- `WorkflowClient._manual_rebase` (workflow_client.py:207-365): fetch PR
refs, then the git sequence; any failing step aborts with False. -/
def manual_rebase (env : GhEnv) (gh_token : String) (pr : PRQueueItem) :
    List (List String) × Bool :=
  match env.run (viewRefsCmd pr) with
  | none => ([viewRefsCmd pr], false)
  | some out =>
    match env.parseRefs out with
    | none => ([viewRefsCmd pr], false)
    | some (head_ref, base_ref) =>
      let r := runCmdSeq env (manualRebaseCmds gh_token pr head_ref base_ref)
      (viewRefsCmd pr :: r.1, r.2)

/-- `WorkflowClient.trigger_rebase` (workflow_client.py:160-205): Dependabot
PRs get the magic comment, pre-commit.ci PRs get the manual git rebase, any
other author fails immediately. -/
def trigger_rebase (env : GhEnv) (gh_token : String) (pr : PRQueueItem) :
    List (List String) × Bool :=
  if pr.pr_author = "app/dependabot" then
    match env.run (dependabotRebaseCmd pr) with
    | some _ => ([dependabotRebaseCmd pr], true)
    | none => ([dependabotRebaseCmd pr], false)
  else if pr.pr_author = "app/pre-commit-ci" then
    manual_rebase env gh_token pr
  else
    ([], false)

/-! ### State manager and CLI entry (cli.py:361-405) -/

/-- Add a PR to its repository's bucket (fresh bucket-building helper). -/
def addToBuckets (b : List (String × RepoQueue)) (pr : PRQueueItem) :
    List (String × RepoQueue) :=
  match lookupQueue pr.repo b with
  | some q => setQueue pr.repo { q with prs := q.prs ++ [pr] } b
  | none => b ++ [(pr.repo, { prs := [pr], current_index := 0 })]

/-- Modelled from the spec: `StateManager.create_initial_state`
(state_manager.py is not in src/) — buckets PRs by repository into fresh
RepoQueues (cursor 0), sets a deadline = now + environment-provided budget,
and starts with no completed repositories (spec §4.4). -/
def create_initial_state (workflow_run_id : String) (prs : List PRQueueItem)
    (now budget : Int) : QueueState :=
  { workflow_run_id := workflow_run_id
    timeout_at := now + budget
    repo_queues := prs.foldl addToBuckets []
    completed_repos := [] }

/-- The load-or-create step of `process_repo_queue_cli` (cli.py:381-392):
resume iff a loaded state exists and its workflow-run id matches, otherwise
create and save a fresh state.  The boolean records whether a fresh state
was created and saved. -/
def cli_load_or_create (loaded : Option QueueState) (workflow_run_id : String)
    (repo_prs : List PRQueueItem) (now budget : Int) : QueueState × Bool :=
  match loaded with
  | some s =>
    if s.workflow_run_id = workflow_run_id then (s, false)
    else (create_initial_state workflow_run_id repo_prs now budget, true)
  | none => (create_initial_state workflow_run_id repo_prs now budget, true)

/-- Result of the CLI fragment: final in-memory state, the verdict of
`process_repo_queue`, and whether `clear_state` was called. -/
structure CliResult where
  state : QueueState
  completed : Option Bool
  cleared : Bool
  deriving DecidableEq, Repr

/-- `process_repo_queue_cli` (cli.py:361-405), from argument parsing to the
conditional `clear_state`: filter the discovered PRs to this repo, load or
create state, process the repo queue, and clear the durable state when the
queue completed and `len(state.completed_repos) == len(state.repo_queues)`. -/
def process_repo_queue_cli (loaded : Option QueueState)
    (workflow_run_id repo : String) (all_prs : List PRQueueItem)
    (now budget : Int) (oracle : List (Int × Bool)) : CliResult :=
  let repo_prs := all_prs.filter fun pr => pr.repo == repo
  let state := (cli_load_or_create loaded workflow_run_id repo_prs now budget).1
  let r := process_repo_queue repo oracle state
  let cleared :=
    match r.completed with
    | some true => r.state.completed_repos.length == r.state.repo_queues.length
    | _ => false
  { state := r.state, completed := r.completed, cleared := cleared }

/-! ### Concrete instances used by witnesses and counterexamples -/

/-- A sample Dependabot PR. -/
def samplePR : PRQueueItem :=
  { repo := "org/a", pr_number := 1, pr_title := "bump dep", pr_author := "app/dependabot",
    status := PRStatus.PENDING, retry_count := 0 }

/-- A state whose single queue still has one PR to process and whose
deadline is imminent. -/
def tightState : QueueState :=
  { workflow_run_id := "run1", timeout_at := 100,
    repo_queues := [("org/a", { prs := [samplePR], current_index := 0 })],
    completed_repos := [] }

/-- A state whose single queue is already drained and recorded as completed. -/
def drainedState : QueueState :=
  { workflow_run_id := "run1", timeout_at := 1000000,
    repo_queues := [("org/a", { prs := [samplePR], current_index := 1 })],
    completed_repos := ["org/a"] }

/-- The documented domain of the `mergeable` flag (status_poller.py:85). -/
def mergeableValues : List String := ["MERGEABLE", "CONFLICTING", "UNKNOWN"]

/-- Expected poller trace from attempt `a` through attempt `k`: a query per
attempt and a `retry_delay * attempt` sleep after each attempt before the
last. -/
def queries_with_backoff (a k : Nat) : List PollAct :=
  if h : a < k then
    PollAct.query a :: PollAct.sleep (retry_delay * a) :: queries_with_backoff (a + 1) k
  else [PollAct.query a]
  termination_by k - a
  decreasing_by omega

/-- An attempt of `wait_for_checks_completion` that neither returns nor
fails: zero checks within the first two attempts, or some check still
running. -/
def nonTerminalAttempt (obs : Nat → Option (List CheckRun)) (k : Nat) : Bool :=
  (((obs k).getD []).isEmpty && k ≤ 2) ||
    (!((obs k).getD []).isEmpty && anyRunningCheck ((obs k).getD []))

/-- Status observation stream that always reports UNKNOWN mergeability with
no rollup. -/
def allUnknownObs : Nat → PRStatusObs := fun _ => { statusCheckRollup := none, mergeable := none }

/-- Status observation stream that turns MERGEABLE on the second attempt. -/
def definiteAt2Obs : Nat → PRStatusObs := fun i =>
  if i = 2 then { statusCheckRollup := some [], mergeable := some "MERGEABLE" }
  else { statusCheckRollup := none, mergeable := some "UNKNOWN" }

/-- A rollup whose only entry is the orchestrator's own failed check. -/
def monitorFailedCheck : CheckRun :=
  { name := some "Monitor Organization Bot PRs", conclusion := some "FAILURE",
    status := some "COMPLETED" }

/-- An ordinary CI check that was cancelled: not a FAILURE, but not a
passing conclusion either. -/
def cancelledCheck : CheckRun :=
  { name := some "ci", conclusion := some "CANCELLED", status := some "COMPLETED" }

/-- A pending check: conclusion still null. -/
def pendingCheck : CheckRun :=
  { name := some "ci", conclusion := none, status := some "IN_PROGRESS" }

/-- Observation stream where the monitor check failed and another check was
cancelled. -/
def monitorPlusCancelledObs : Nat → PRStatusObs := fun _ =>
  { statusCheckRollup := some [monitorFailedCheck, cancelledCheck],
    mergeable := some "MERGEABLE" }

/-- Observation stream where only the monitor check exists and it failed. -/
def monitorOnlyObs : Nat → PRStatusObs := fun _ =>
  { statusCheckRollup := some [monitorFailedCheck], mergeable := some "MERGEABLE" }

/-- Observation stream with one pending check. -/
def pendingOnlyObs : Nat → PRStatusObs := fun _ =>
  { statusCheckRollup := some [pendingCheck], mergeable := some "MERGEABLE" }

/-- Check-rollup stream that never shows any check. -/
def emptyRollupObs : Nat → Option (List CheckRun) := fun _ => some []

/-- Command environment in which every external command succeeds. -/
def okEnv : GhEnv := { run := fun _ => some "", parseRefs := fun _ => some ("head", "main") }

/-- A pre-commit.ci PR. -/
def precommitPR : PRQueueItem := { samplePR with pr_author := "app/pre-commit-ci" }

/-- A PR from an unsupported bot author. -/
def otherAuthorPR : PRQueueItem := { samplePR with pr_author := "app/renovate" }

/-! ### Queue manager lemmas -/

theorem lookupQueue_setQueue_self (repo : String) (q' : RepoQueue) :
    ∀ (l : List (String × RepoQueue)) (q : RepoQueue),
      lookupQueue repo l = some q → lookupQueue repo (setQueue repo q' l) = some q' := by
  intro l
  induction l with
  | nil => intro q h; simp [lookupQueue] at h
  | cons p rest ih =>
    intro q h
    obtain ⟨k, qq⟩ := p
    by_cases hk : repo = k
    · simp [setQueue, hk, lookupQueue]
    · simp only [lookupQueue, if_neg hk] at h
      simp only [setQueue, if_neg hk, lookupQueue, if_neg hk]
      exact ih q h

theorem lookupQueue_setQueue_ne (repo r : String) (q' : RepoQueue) (hne : r ≠ repo) :
    ∀ l : List (String × RepoQueue),
      lookupQueue r (setQueue repo q' l) = lookupQueue r l := by
  intro l
  induction l with
  | nil => simp [setQueue]
  | cons p rest ih =>
    obtain ⟨k, qq⟩ := p
    by_cases hk : repo = k
    · subst hk
      simp only [setQueue, if_pos rfl, lookupQueue, if_neg hne, ih]
    · simp only [setQueue, if_neg hk, lookupQueue, ih]

theorem lookupQueue_mem {r : String} {q : RepoQueue} :
    ∀ {l : List (String × RepoQueue)}, lookupQueue r l = some q → (r, q) ∈ l := by
  intro l
  induction l with
  | nil => intro h; simp [lookupQueue] at h
  | cons p rest ih =>
    intro h
    obtain ⟨k, qq⟩ := p
    by_cases hk : r = k
    · subst hk
      rw [lookupQueue, if_pos rfl] at h
      injection h with h
      subst h
      exact List.mem_cons_self _ _
    · simp only [lookupQueue, if_neg hk] at h
      exact List.mem_cons_of_mem _ (ih h)

/-- Unfolding of the per-repo clause of `completedInvariantB`. -/
theorem completedInvariantB_iff (s : QueueState) :
    completedInvariantB s = true ↔
      ∀ r ∈ s.completed_repos,
        ∃ q, lookupQueue r s.repo_queues = some q ∧ q.is_complete = true := by
  unfold completedInvariantB
  rw [List.all_eq_true]
  constructor
  · intro h r hr
    have := h r hr
    cases hl : lookupQueue r s.repo_queues with
    | none => rw [hl] at this; simp at this
    | some q => rw [hl] at this; exact ⟨q, rfl, this⟩
  · intro h r hr
    obtain ⟨q, hq, hc⟩ := h r hr
    rw [hq]; exact hc

/-- Every PR-processor call inside the loop is immediately followed by a
`save_state`. -/
theorem saep_go (repo : String) :
    ∀ (oracle : List (Int × Bool)) (state : QueueState) (q : RepoQueue),
      saved_after_every_process (process_repo_queue_go repo oracle state q).events = true := by
  intro oracle
  induction oracle with
  | nil =>
    intro state q
    by_cases h : q.is_complete <;>
      simp [process_repo_queue_go, h, saved_after_every_process]
  | cons p rest ih =>
    intro state q
    obtain ⟨now, should_advance⟩ := p
    by_cases h1 : q.is_complete
    · simp [process_repo_queue_go, h1, saved_after_every_process]
    · by_cases h2 : is_timeout_approaching now state
      · simp [process_repo_queue_go, h1, h2, saved_after_every_process]
      · cases hc : q.get_current_pr with
        | none => simp [process_repo_queue_go, h1, h2, hc, saved_after_every_process]
        | some pr =>
          by_cases h3 : should_advance
          · simp only [process_repo_queue_go, h1, h2, hc, h3, Bool.false_eq_true,
              if_false, if_true, ite_false, ite_true]
            simp [saved_after_every_process]
            exact ih _ _
          · simp [process_repo_queue_go, h1, h2, hc, h3, saved_after_every_process]

/-- The loop preserves the completed-repos invariant, keeps the carried queue
in sync with the state, preserves the cursor bound, and reports completion
only for a complete queue. -/
theorem go_preserves (repo : String) :
    ∀ (oracle : List (Int × Bool)) (state : QueueState) (q : RepoQueue),
      completedInvariantB state = true →
      lookupQueue repo state.repo_queues = some q →
      q.current_index ≤ q.prs.length →
      completedInvariantB (process_repo_queue_go repo oracle state q).state = true ∧
      lookupQueue repo (process_repo_queue_go repo oracle state q).state.repo_queues =
        some (process_repo_queue_go repo oracle state q).queue ∧
      ((process_repo_queue_go repo oracle state q).completed = some true →
        (process_repo_queue_go repo oracle state q).queue.is_complete = true) := by
  intro oracle
  induction oracle with
  | nil =>
    intro state q hinv hq hb
    by_cases h : q.is_complete <;>
      simp_all [process_repo_queue_go, h]
  | cons p rest ih =>
    intro state q hinv hq hb
    obtain ⟨now, should_advance⟩ := p
    by_cases h1 : q.is_complete
    · simp_all [process_repo_queue_go, h1]
    · by_cases h2 : is_timeout_approaching now state
      · simp_all [process_repo_queue_go, h1, h2]
      · cases hc : q.get_current_pr with
        | none =>
          -- `prs.get? idx = none` forces `len ≤ idx`; with the bound the
          -- queue is in fact complete.
          have hlen : q.prs.length ≤ q.current_index := by
            by_contra hlt
            push_neg at hlt
            have := List.get?_eq_none.mp (by simpa [RepoQueue.get_current_pr] using hc)
            omega
          have hcomp : q.is_complete = true := by
            have : q.current_index = q.prs.length := le_antisymm hb hlen
            simp [RepoQueue.is_complete, this]
          simp_all [process_repo_queue_go, h1, h2, hc]
        | some pr =>
          have hlt : q.current_index < q.prs.length := by
            by_contra hge
            push_neg at hge
            have : q.prs.get? q.current_index = none := List.get?_eq_none.mpr hge
            rw [RepoQueue.get_current_pr] at hc
            rw [this] at hc
            exact Option.noConfusion hc
          by_cases h3 : should_advance
          · -- advance: re-establish the premises for the tail of the loop
            have hinv1 : completedInvariantB (set_repo_queue state repo q.advance) = true := by
              rw [completedInvariantB_iff]
              intro r hr
              by_cases hrr : r = repo
              · subst hrr
                obtain ⟨q', hq', hc'⟩ := (completedInvariantB_iff state).mp hinv r hr
                rw [hq] at hq'
                obtain rfl : q = q' := by injection hq'
                rw [hc'] at h1
                exact absurd rfl h1
              · obtain ⟨q', hq', hc'⟩ := (completedInvariantB_iff state).mp hinv r hr
                refine ⟨q', ?_, hc'⟩
                rw [set_repo_queue]
                simpa [lookupQueue_setQueue_ne repo r _ hrr] using hq'
            have hq1 : lookupQueue repo (set_repo_queue state repo q.advance).repo_queues =
                some q.advance := by
              rw [set_repo_queue]
              exact lookupQueue_setQueue_self repo _ _ q hq
            have hb1 : q.advance.current_index ≤ q.advance.prs.length := by
              simp [RepoQueue.advance]
              omega
            have := ih (set_repo_queue state repo q.advance) q.advance hinv1 hq1 hb1
            simp only [process_repo_queue_go, h1, h2, hc, h3, Bool.false_eq_true,
              if_false, if_true, ite_false, ite_true]
            simpa using this
          · simp_all [process_repo_queue_go, h1, h2, hc, h3]

/-- C1: during every invocation of `QueueManager.process_repo_queue` the state
is persisted via `save_state` immediately after every call to the PR
processor (before the cursor is advanced or the function returns), and when
the timeout is approaching (less than 10 minutes to the deadline) the state
is persisted and the function returns false without processing another PR. -/
theorem process_repo_queue_saves_after_each_pr_and_on_timeout
    (repo : String) (oracle : List (Int × Bool)) (state : QueueState) :
    saved_after_every_process (process_repo_queue repo oracle state).events = true ∧
    (∀ (now : Int) (b : Bool) (rest : List (Int × Bool)) (q : RepoQueue),
      oracle = (now, b) :: rest →
      lookupQueue repo state.repo_queues = some q →
      q.is_complete = false →
      is_timeout_approaching now state = true →
      process_repo_queue repo oracle state =
        ⟨[QMEvent.saveState state], some false, state⟩) := by
  constructor
  · unfold process_repo_queue
    cases hl : lookupQueue repo state.repo_queues with
    | none => simp [saved_after_every_process]
    | some q =>
      have hs := saep_go repo oracle state q
      by_cases hr : (process_repo_queue_go repo oracle state q).completed = some true <;>
        simp only [hr, if_true, if_false, ite_true, ite_false] <;> simpa using hs
  · intro now b rest q hosub hq hcomp happ
    subst hosub
    unfold process_repo_queue
    rw [hq]
    simp [process_repo_queue_go, hcomp, happ]

/-- Witness for C1: on a concrete state whose deadline is 100s away, the
invocation saves the state once and suspends without processing a PR. -/
theorem process_repo_queue_saves_witness :
    saved_after_every_process
      (process_repo_queue "org/a" [((0 : Int), true)] tightState).events = true ∧
    process_repo_queue "org/a" [((0 : Int), true)] tightState =
      ⟨[QMEvent.saveState tightState], some false, tightState⟩ := by
  refine ⟨(process_repo_queue_saves_after_each_pr_and_on_timeout
    "org/a" [((0 : Int), true)] tightState).1, ?_⟩
  exact (process_repo_queue_saves_after_each_pr_and_on_timeout
    "org/a" [((0 : Int), true)] tightState).2 0 true []
    { prs := [samplePR], current_index := 0 }
    rfl (by decide) (by decide) (by decide)

/-- C2: `process_repo_queue` preserves the invariant that every repository
name in `completed_repos` maps to a `RepoQueue` whose `is_complete()` is
true (given the spec §3 cursor bound on the processed queue). -/
theorem process_repo_queue_completed_invariant
    (repo : String) (oracle : List (Int × Bool)) (state : QueueState)
    (hinv : completedInvariantB state = true)
    (hbound : ∀ p ∈ state.repo_queues, p.2.current_index ≤ p.2.prs.length) :
    completedInvariantB (process_repo_queue repo oracle state).state = true := by
  unfold process_repo_queue
  cases hl : lookupQueue repo state.repo_queues with
  | none => simpa using hinv
  | some q =>
    have hb : q.current_index ≤ q.prs.length := hbound (repo, q) (lookupQueue_mem hl)
    obtain ⟨h1, h2, h3⟩ := go_preserves repo oracle state q hinv hl hb
    by_cases hr : (process_repo_queue_go repo oracle state q).completed = some true
    · simp only [hr, if_true, ite_true]
      rw [completedInvariantB_iff]
      intro r hr2
      simp only [List.mem_append, List.mem_singleton] at hr2
      rcases hr2 with hr2 | rfl
      · exact (completedInvariantB_iff _).mp h1 r hr2
      · exact ⟨_, h2, h3 hr⟩
    · simp only [hr, if_false, ite_false]
      simpa using h1

/-- Witness for C2: the invariant survives processing the already-drained
concrete state. -/
theorem process_repo_queue_completed_invariant_witness :
    completedInvariantB (process_repo_queue "org/a" [] drainedState).state = true :=
  process_repo_queue_completed_invariant "org/a" [] drainedState
    (by decide) (by decide)

/-! ### Status poller lemmas -/

theorem check_go_eq_stop (obs : Nat → PRStatusObs) (a : Nat)
    (hm : obsMergeable (obs a) ≠ "UNKNOWN") :
    check_pr_status_go obs a =
      ([PollAct.query a],
        (computeAllPassed (obsRollup (obs a)), computeHasFailures (obsRollup (obs a)),
          obsMergeable (obs a))) := by
  rw [check_pr_status_go, if_pos hm]

theorem check_go_eq_cont (obs : Nat → PRStatusObs) (a : Nat)
    (hm : obsMergeable (obs a) = "UNKNOWN") (hlt : a < max_retries) :
    check_pr_status_go obs a =
      (PollAct.query a :: PollAct.sleep (retry_delay * a) ::
        (check_pr_status_go obs (a + 1)).1,
       (check_pr_status_go obs (a + 1)).2) := by
  rw [check_pr_status_go, if_neg (by simp [hm]), dif_pos hlt]

theorem check_go_eq_exhaust (obs : Nat → PRStatusObs) (a : Nat)
    (hm : obsMergeable (obs a) = "UNKNOWN") (hge : ¬ a < max_retries) :
    check_pr_status_go obs a =
      ([PollAct.query a],
        (computeAllPassed (obsRollup (obs a)), computeHasFailures (obsRollup (obs a)),
          "UNKNOWN")) := by
  rw [check_pr_status_go, if_neg (by simp [hm]), dif_neg hge]

/-- The retry loop reports UNKNOWN mergeability exactly when every remaining
attempt observed UNKNOWN. -/
theorem check_go_unknown_iff (obs : Nat → PRStatusObs) :
    ∀ (n a : Nat), a + n = max_retries → 1 ≤ a →
      ((check_pr_status_go obs a).2.2.2 = "UNKNOWN" ↔
        ∀ i, a ≤ i → i ≤ max_retries → obsMergeable (obs i) = "UNKNOWN") := by
  intro n
  induction n with
  | zero =>
    intro a ha h1
    have ha5 : a = max_retries := by omega
    subst ha5
    by_cases hm : obsMergeable (obs max_retries) = "UNKNOWN"
    · rw [check_go_eq_exhaust obs _ hm (by omega)]
      simp only [true_iff]
      intro i hi1 hi2
      have : i = max_retries := by omega
      subst this; exact hm
    · rw [check_go_eq_stop obs _ hm]
      simp only
      constructor
      · intro h; exact absurd h hm
      · intro h; exact absurd (h max_retries le_rfl le_rfl) hm
  | succ n ih =>
    intro a ha h1
    have halt : a < max_retries := by omega
    by_cases hm : obsMergeable (obs a) = "UNKNOWN"
    · rw [check_go_eq_cont obs a hm halt]
      have := ih (a + 1) (by omega) (by omega)
      simp only
      rw [this]
      constructor
      · intro h i hi1 hi2
        rcases Nat.eq_or_lt_of_le hi1 with rfl | hlt
        · exact hm
        · exact h i hlt hi2
      · intro h i hi1 hi2
        exact h i (by omega) hi2
    · rw [check_go_eq_stop obs a hm]
      simp only
      constructor
      · intro h; exact absurd h hm
      · intro h; exact absurd (h a le_rfl (by omega)) hm

/-- The values the retry loop returns all come from the observation at some
single queried attempt (with mergeable possibly forced to UNKNOWN). -/
theorem check_go_returns (obs : Nat → PRStatusObs) :
    ∀ (n a : Nat), a + n = max_retries → 1 ≤ a →
      ∃ i, a ≤ i ∧ i ≤ max_retries ∧
        (check_pr_status_go obs a).2.1 = computeAllPassed (obsRollup (obs i)) ∧
        (check_pr_status_go obs a).2.2.1 = computeHasFailures (obsRollup (obs i)) ∧
        ((check_pr_status_go obs a).2.2.2 = obsMergeable (obs i) ∨
          (check_pr_status_go obs a).2.2.2 = "UNKNOWN") := by
  intro n
  induction n with
  | zero =>
    intro a ha h1
    have ha5 : a = max_retries := by omega
    subst ha5
    by_cases hm : obsMergeable (obs max_retries) = "UNKNOWN"
    · rw [check_go_eq_exhaust obs _ hm (by omega)]
      exact ⟨max_retries, le_rfl, le_rfl, rfl, rfl, Or.inr rfl⟩
    · rw [check_go_eq_stop obs _ hm]
      exact ⟨max_retries, le_rfl, le_rfl, rfl, rfl, Or.inl rfl⟩
  | succ n ih =>
    intro a ha h1
    have halt : a < max_retries := by omega
    by_cases hm : obsMergeable (obs a) = "UNKNOWN"
    · rw [check_go_eq_cont obs a hm halt]
      obtain ⟨i, hi1, hi2, h3, h4, h5⟩ := ih (a + 1) (by omega) (by omega)
      exact ⟨i, by omega, hi2, h3, h4, h5⟩
    · rw [check_go_eq_stop obs a hm]
      exact ⟨a, le_rfl, by omega, rfl, rfl, Or.inl rfl⟩

theorem queries_with_backoff_lt {a k : Nat} (h : a < k) :
    queries_with_backoff a k =
      PollAct.query a :: PollAct.sleep (retry_delay * a) :: queries_with_backoff (a + 1) k := by
  rw [queries_with_backoff, dif_pos h]

theorem queries_with_backoff_ge {a k : Nat} (h : ¬ a < k) :
    queries_with_backoff a k = [PollAct.query a] := by
  rw [queries_with_backoff, dif_neg h]

/-- Closed-form trace of the retry loop when attempt `k` is the first with a
definite mergeable value. -/
theorem check_go_trace_definite (obs : Nat → PRStatusObs) :
    ∀ (n a k : Nat), a + n = max_retries → 1 ≤ a → a ≤ k → k ≤ max_retries →
      (∀ j, a ≤ j → j < k → obsMergeable (obs j) = "UNKNOWN") →
      obsMergeable (obs k) ≠ "UNKNOWN" →
      check_pr_status_go obs a =
        (queries_with_backoff a k,
          (computeAllPassed (obsRollup (obs k)), computeHasFailures (obsRollup (obs k)),
            obsMergeable (obs k))) := by
  intro n
  induction n with
  | zero =>
    intro a k ha h1 hak hk5 hbefore hk
    have ha5 : a = max_retries := by omega
    have hk5' : k = max_retries := by omega
    subst ha5; subst hk5'
    rw [check_go_eq_stop obs _ hk, queries_with_backoff_ge (by omega)]
  | succ n ih =>
    intro a k ha h1 hak hk5 hbefore hk
    rcases Nat.eq_or_lt_of_le hak with rfl | haltk
    · rw [check_go_eq_stop obs _ hk, queries_with_backoff_ge (by omega)]
    · have hm : obsMergeable (obs a) = "UNKNOWN" := hbefore a le_rfl haltk
      rw [check_go_eq_cont obs a hm (by omega)]
      rw [ih (a + 1) k (by omega) (by omega) (by omega) hk5
        (fun j hj1 hj2 => hbefore j (by omega) hj2) hk]
      rw [queries_with_backoff_lt haltk]

/-- Closed-form trace of the retry loop when every attempt observes UNKNOWN:
all `max_retries` attempts run and mergeable is forced to UNKNOWN. -/
theorem check_go_trace_all_unknown (obs : Nat → PRStatusObs) :
    ∀ (n a : Nat), a + n = max_retries → 1 ≤ a →
      (∀ j, a ≤ j → j ≤ max_retries → obsMergeable (obs j) = "UNKNOWN") →
      check_pr_status_go obs a =
        (queries_with_backoff a max_retries,
          (computeAllPassed (obsRollup (obs max_retries)),
            computeHasFailures (obsRollup (obs max_retries)), "UNKNOWN")) := by
  intro n
  induction n with
  | zero =>
    intro a ha h1 hall
    have ha5 : a = max_retries := by omega
    subst ha5
    rw [check_go_eq_exhaust obs _ (hall _ le_rfl le_rfl) (by omega),
      queries_with_backoff_ge (by omega)]
  | succ n ih =>
    intro a ha h1 hall
    have halt : a < max_retries := by omega
    rw [check_go_eq_cont obs a (hall a le_rfl (by omega)) halt]
    rw [ih (a + 1) (by omega) (by omega) (fun j hj1 hj2 => hall j (by omega) hj2)]
    rw [queries_with_backoff_lt halt]

/-- A rollup in which every non-excluded check concluded
SUCCESS/NEUTRAL/SKIPPED/null passes the `all_passed` computation. -/
theorem computeAllPassed_of_good (rollup : List CheckRun)
    (h : rollup = [] ∨ ∀ c ∈ rollup, c.name ≠ some monitor_check_name →
      (c.conclusion = some "SUCCESS" ∨ c.conclusion = some "NEUTRAL" ∨
        c.conclusion = some "SKIPPED" ∨ c.conclusion = none)) :
    computeAllPassed rollup = true := by
  rcases h with rfl | h
  · rfl
  · unfold computeAllPassed
    rw [List.all_eq_true]
    intro c hc
    have hcf := List.mem_filter.mp hc
    have hname : c.name ≠ some monitor_check_name := by
      simpa [bne] using hcf.2
    rcases h c hcf.1 hname with h' | h' | h' | h' <;> rw [h'] <;> decide

/-- C3: `check_pr_status` never returns a mergeable value outside
MERGEABLE/CONFLICTING/UNKNOWN (over observations drawn from that domain),
and it returns UNKNOWN exactly when all 5 retry attempts observed UNKNOWN. -/
theorem check_pr_status_mergeable_domain (obs : Nat → PRStatusObs)
    (h : ∀ i, 1 ≤ i → i ≤ 5 → obsMergeable (obs i) ∈ mergeableValues) :
    (check_pr_status obs).2.2.2 ∈ mergeableValues ∧
    ((check_pr_status obs).2.2.2 = "UNKNOWN" ↔
      ∀ i, 1 ≤ i → i ≤ 5 → obsMergeable (obs i) = "UNKNOWN") := by
  constructor
  · obtain ⟨i, hi1, hi2, _, _, hm⟩ := check_go_returns obs 4 1 rfl (by omega)
    rw [show (check_pr_status obs).2.2.2 = (check_pr_status_go obs 1).2.2.2 from rfl]
    rcases hm with hm | hm
    · rw [hm]; exact h i hi1 hi2
    · rw [hm]; simp [mergeableValues]
  · rw [show (check_pr_status obs).2.2.2 = (check_pr_status_go obs 1).2.2.2 from rfl]
    rw [check_go_unknown_iff obs 4 1 rfl (by omega)]
    exact Iff.rfl

/-- Witness for C3: an observation stream turning MERGEABLE on attempt 2
stays within the domain, and the function does not report UNKNOWN. -/
theorem check_pr_status_mergeable_domain_witness :
    (check_pr_status definiteAt2Obs).2.2.2 ∈ mergeableValues ∧
    ((check_pr_status definiteAt2Obs).2.2.2 = "UNKNOWN" ↔
      ∀ i, 1 ≤ i → i ≤ 5 → obsMergeable (definiteAt2Obs i) = "UNKNOWN") :=
  check_pr_status_mergeable_domain definiteAt2Obs (by
    intro i h1 h2
    by_cases hi : i = 2 <;> simp [definiteAt2Obs, obsMergeable, mergeableValues, hi])

/-- C8: `check_pr_status` sleeps a fixed 15s before any query; then, while
mergeable reads UNKNOWN, it sleeps `10s * attempt` between at most 5
attempts, returning at the first definite observation, or mergeable forced
to UNKNOWN after all 5 attempts observed UNKNOWN. -/
theorem check_pr_status_warmup_and_backoff (obs : Nat → PRStatusObs) :
    (∀ k, 1 ≤ k → k ≤ 5 →
      (∀ j, 1 ≤ j → j < k → obsMergeable (obs j) = "UNKNOWN") →
      obsMergeable (obs k) ≠ "UNKNOWN" →
      check_pr_status obs =
        (PollAct.sleep 15 :: queries_with_backoff 1 k,
          (computeAllPassed (obsRollup (obs k)), computeHasFailures (obsRollup (obs k)),
            obsMergeable (obs k)))) ∧
    ((∀ j, 1 ≤ j → j ≤ 5 → obsMergeable (obs j) = "UNKNOWN") →
      check_pr_status obs =
        (PollAct.sleep 15 :: queries_with_backoff 1 5,
          (computeAllPassed (obsRollup (obs 5)), computeHasFailures (obsRollup (obs 5)),
            "UNKNOWN"))) := by
  constructor
  · intro k h1 h5 hb hk
    unfold check_pr_status
    rw [check_go_trace_definite obs 4 1 k rfl (by omega) h1 h5 hb hk]
  · intro hall
    unfold check_pr_status
    rw [check_go_trace_all_unknown obs 4 1 rfl (by omega) hall]
    rfl

/-- Witness for C8: the exact traces on a stream that turns definite at
attempt 2 and on a stream that never does. -/
theorem check_pr_status_warmup_and_backoff_witness :
    check_pr_status definiteAt2Obs =
      (PollAct.sleep 15 :: queries_with_backoff 1 2,
        (computeAllPassed (obsRollup (definiteAt2Obs 2)),
          computeHasFailures (obsRollup (definiteAt2Obs 2)),
          obsMergeable (definiteAt2Obs 2))) ∧
    check_pr_status allUnknownObs =
      (PollAct.sleep 15 :: queries_with_backoff 1 5,
        (computeAllPassed (obsRollup (allUnknownObs 5)),
          computeHasFailures (obsRollup (allUnknownObs 5)), "UNKNOWN")) := by
  constructor
  · refine (check_pr_status_warmup_and_backoff definiteAt2Obs).1 2 (by omega) (by omega)
      ?_ (by decide)
    intro j hj1 hj2
    have : j = 1 := by omega
    subst this; decide
  · exact (check_pr_status_warmup_and_backoff allUnknownObs).2 (fun j _ _ => rfl)

/-- C9: `check_pr_status` reports `all_passed = true` whenever each queried
rollup is empty or every non-excluded check concluded
SUCCESS/NEUTRAL/SKIPPED/null. -/
theorem check_pr_status_all_passed_when_good (obs : Nat → PRStatusObs)
    (h : ∀ i, 1 ≤ i → i ≤ 5 →
      (obsRollup (obs i) = [] ∨ ∀ c ∈ obsRollup (obs i),
        c.name ≠ some monitor_check_name →
        (c.conclusion = some "SUCCESS" ∨ c.conclusion = some "NEUTRAL" ∨
          c.conclusion = some "SKIPPED" ∨ c.conclusion = none))) :
    (check_pr_status obs).2.1 = true := by
  obtain ⟨i, hi1, hi2, hap, _, _⟩ := check_go_returns obs 4 1 rfl (by omega)
  rw [show (check_pr_status obs).2.1 = (check_pr_status_go obs 1).2.1 from rfl, hap]
  exact computeAllPassed_of_good _ (h i hi1 hi2)

/-- Witness for C9: a PR whose single check is still pending (null
conclusion) is reported as `all_passed = true`. -/
theorem check_pr_status_all_passed_when_good_witness :
    (check_pr_status pendingOnlyObs).2.1 = true :=
  check_pr_status_all_passed_when_good pendingOnlyObs (by
    intro i _ _
    right
    intro c hc _
    have : c = pendingCheck := by simpa [pendingOnlyObs, obsRollup] using hc
    subst this
    right; right; right; rfl)

/-- Counterexample for C10: with a rollup where only the monitor check has
conclusion FAILURE but another check was CANCELLED, `check_pr_status`
reports `all_passed = false` (the claim asserts true), alongside
`has_failures = true`. -/
theorem monitor_only_failure_counterexample :
    (check_pr_status monitorPlusCancelledObs).2.1 = false ∧
    (check_pr_status monitorPlusCancelledObs).2.2.1 = true ∧
    (obsRollup (monitorPlusCancelledObs 1)).all
      (fun c => !(c.conclusion == some "FAILURE") ||
        c.name == some monitor_check_name) = true := by
  have h := check_go_eq_stop monitorPlusCancelledObs 1 (by decide)
  refine ⟨?_, ?_, by decide⟩
  · rw [show (check_pr_status monitorPlusCancelledObs).2.1 =
      (check_pr_status_go monitorPlusCancelledObs 1).2.1 from rfl, h]
    decide
  · rw [show (check_pr_status monitorPlusCancelledObs).2.2.1 =
      (check_pr_status_go monitorPlusCancelledObs 1).2.2.1 from rfl, h]
    decide

/-- C10 (amended): the monitor check is excluded from `all_passed` but not
from `has_failures`: when the monitor check concluded FAILURE and every
other check concluded SUCCESS/NEUTRAL/SKIPPED/null, the function reports
`all_passed = true` and `has_failures = true` simultaneously. -/
theorem monitor_check_excluded_from_all_passed (obs : Nat → PRStatusObs)
    (hfail : ∀ i, 1 ≤ i → i ≤ 5 → ∃ c ∈ obsRollup (obs i),
      c.name = some monitor_check_name ∧ c.conclusion = some "FAILURE")
    (hothers : ∀ i, 1 ≤ i → i ≤ 5 → ∀ c ∈ obsRollup (obs i),
      c.name ≠ some monitor_check_name →
      (c.conclusion = some "SUCCESS" ∨ c.conclusion = some "NEUTRAL" ∨
        c.conclusion = some "SKIPPED" ∨ c.conclusion = none)) :
    (check_pr_status obs).2.1 = true ∧ (check_pr_status obs).2.2.1 = true := by
  obtain ⟨i, hi1, hi2, hap, hhf, _⟩ := check_go_returns obs 4 1 rfl (by omega)
  constructor
  · rw [show (check_pr_status obs).2.1 = (check_pr_status_go obs 1).2.1 from rfl, hap]
    exact computeAllPassed_of_good _ (Or.inr (hothers i hi1 hi2))
  · rw [show (check_pr_status obs).2.2.1 = (check_pr_status_go obs 1).2.2.1 from rfl, hhf]
    obtain ⟨c, hc, hcn, hcf⟩ := hfail i hi1 hi2
    unfold computeHasFailures
    rw [List.any_eq_true]
    exact ⟨c, hc, by rw [hcf]; rfl⟩

/-- Witness for C10 (amended): a rollup holding only the failed monitor
check yields `all_passed = true` and `has_failures = true` together. -/
theorem monitor_check_excluded_witness :
    (check_pr_status monitorOnlyObs).2.1 = true ∧
    (check_pr_status monitorOnlyObs).2.2.1 = true :=
  monitor_check_excluded_from_all_passed monitorOnlyObs
    (by
      intro i _ _
      exact ⟨monitorFailedCheck, by simp [monitorOnlyObs, obsRollup], rfl, rfl⟩)
    (by
      intro i _ _ c hc hne
      have : c = monitorFailedCheck := by simpa [monitorOnlyObs, obsRollup] using hc
      subst this
      exact absurd rfl hne)

/-! ### wait_for_checks_completion lemmas -/

theorem wait_loop_eq_budget_exhausted (obs : Nat → Option (List CheckRun))
    (M a : Nat) (h : ¬ a ≤ M) :
    wait_for_checks_loop obs M a = CheckStatus.RUNNING := by
  rw [wait_for_checks_loop, dif_neg h]

theorem wait_loop_eq_nochecks (obs : Nat → Option (List CheckRun))
    (M a : Nat) (h : a ≤ M) (he : ((obs a).getD []).isEmpty = true) (h2 : a > 2) :
    wait_for_checks_loop obs M a = CheckStatus.NO_CHECKS := by
  rw [wait_for_checks_loop, dif_pos h, if_pos he, if_pos h2]

theorem wait_loop_eq_empty_early (obs : Nat → Option (List CheckRun))
    (M a : Nat) (h : a ≤ M) (he : ((obs a).getD []).isEmpty = true) (h2 : ¬ a > 2) :
    wait_for_checks_loop obs M a = wait_for_checks_loop obs M (a + 1) := by
  rw [wait_for_checks_loop, dif_pos h, if_pos he, if_neg h2]

theorem wait_loop_eq_still_running (obs : Nat → Option (List CheckRun))
    (M a : Nat) (h : a ≤ M) (he : ¬ ((obs a).getD []).isEmpty = true)
    (hr : anyRunningCheck ((obs a).getD []) = true) :
    wait_for_checks_loop obs M a = wait_for_checks_loop obs M (a + 1) := by
  rw [wait_for_checks_loop, dif_pos h, if_neg he, if_pos hr]

theorem wait_loop_eq_failed (obs : Nat → Option (List CheckRun))
    (M a : Nat) (h : a ≤ M) (he : ¬ ((obs a).getD []).isEmpty = true)
    (hr : ¬ anyRunningCheck ((obs a).getD []) = true)
    (hf : anyFailedCheck ((obs a).getD []) = true) :
    wait_for_checks_loop obs M a = CheckStatus.FAILED := by
  rw [wait_for_checks_loop, dif_pos h, if_neg he, if_neg hr, if_pos hf]

theorem wait_loop_eq_completed (obs : Nat → Option (List CheckRun))
    (M a : Nat) (h : a ≤ M) (he : ¬ ((obs a).getD []).isEmpty = true)
    (hr : ¬ anyRunningCheck ((obs a).getD []) = true)
    (hf : ¬ anyFailedCheck ((obs a).getD []) = true) :
    wait_for_checks_loop obs M a = CheckStatus.COMPLETED := by
  rw [wait_for_checks_loop, dif_pos h, if_neg he, if_neg hr, if_neg hf]

/-- Characterization of the wait loop's NO_CHECKS and RUNNING outcomes:
NO_CHECKS requires an empty observation at some attempt numbered at least 3
within the budget; RUNNING requires every attempt within the budget to have
been non-terminal. -/
theorem wait_loop_char (obs : Nat → Option (List CheckRun)) (M : Nat) :
    ∀ (n a : Nat), M + 1 = a + n →
      (wait_for_checks_loop obs M a = CheckStatus.NO_CHECKS →
        ∃ k, a ≤ k ∧ k ≤ M ∧ 3 ≤ k ∧ ((obs k).getD []).isEmpty = true) ∧
      (wait_for_checks_loop obs M a = CheckStatus.RUNNING →
        ∀ k, a ≤ k → k ≤ M → nonTerminalAttempt obs k = true) := by
  intro n
  induction n with
  | zero =>
    intro a ha
    have h : ¬ a ≤ M := by omega
    rw [wait_loop_eq_budget_exhausted obs M a h]
    constructor
    · intro hcontra; exact absurd hcontra (by simp)
    · intro _ k hk1 hk2; omega
  | succ n ih =>
    intro a ha
    have h : a ≤ M := by omega
    by_cases he : ((obs a).getD []).isEmpty = true
    · by_cases h2 : a > 2
      · rw [wait_loop_eq_nochecks obs M a h he h2]
        constructor
        · intro _; exact ⟨a, le_rfl, h, by omega, he⟩
        · intro hcontra; exact absurd hcontra (by simp)
      · rw [wait_loop_eq_empty_early obs M a h he h2]
        obtain ⟨ihn, ihr⟩ := ih (a + 1) (by omega)
        constructor
        · intro hres
          obtain ⟨k, hk1, hk2, hk3, hk4⟩ := ihn hres
          exact ⟨k, by omega, hk2, hk3, hk4⟩
        · intro hres k hk1 hk2
          by_cases hke : k = a
          · subst hke
            have ha2 : k ≤ 2 := by omega
            simp [nonTerminalAttempt, he, ha2]
          · exact ihr hres k (by omega) hk2
    · by_cases hr : anyRunningCheck ((obs a).getD []) = true
      · rw [wait_loop_eq_still_running obs M a h he hr]
        obtain ⟨ihn, ihr⟩ := ih (a + 1) (by omega)
        constructor
        · intro hres
          obtain ⟨k, hk1, hk2, hk3, hk4⟩ := ihn hres
          exact ⟨k, by omega, hk2, hk3, hk4⟩
        · intro hres k hk1 hk2
          by_cases hke : k = a
          · subst hke
            have he' : ((obs k).getD []).isEmpty = false := by
              simpa using he
            simp [nonTerminalAttempt, he', hr]
          · exact ihr hres k (by omega) hk2
      · by_cases hf : anyFailedCheck ((obs a).getD []) = true
        · rw [wait_loop_eq_failed obs M a h he hr hf]
          exact ⟨fun hcontra => absurd hcontra (by simp),
            fun hcontra => absurd hcontra (by simp)⟩
        · rw [wait_loop_eq_completed obs M a h he hr hf]
          exact ⟨fun hcontra => absurd hcontra (by simp),
            fun hcontra => absurd hcontra (by simp)⟩

/-- Counterexample for C4: with a 1-minute budget (2 attempts) and zero
checks observed at both in-budget attempts, `wait_for_checks_completion`
returns RUNNING although no check was ever pending — refuting "RUNNING only
when the attempt budget is exhausted while at least one check is still
pending". -/
theorem wait_for_checks_running_counterexample :
    wait_for_checks_completion emptyRollupObs 1 = CheckStatus.RUNNING ∧
    (emptyRollupObs 1).getD [] = [] ∧ (emptyRollupObs 2).getD [] = [] := by
  refine ⟨?_, rfl, rfl⟩
  show wait_for_checks_loop emptyRollupObs 2 1 = CheckStatus.RUNNING
  rw [wait_loop_eq_empty_early emptyRollupObs 2 1 (by omega) (by decide) (by omega),
    wait_loop_eq_empty_early emptyRollupObs 2 2 (by omega) (by decide) (by omega),
    wait_loop_eq_budget_exhausted emptyRollupObs 2 3 (by omega)]

/-- C4 (amended): `wait_for_checks_completion` returns NO_CHECKS only when
some attempt numbered at least 3 within the budget `timeout_minutes*60/30`
observed zero checks, and returns RUNNING only when every attempt within the
budget was non-terminal — observed either zero checks at attempt number ≤ 2
or at least one check still pending. -/
theorem wait_for_checks_completion_outcomes (obs : Nat → Option (List CheckRun))
    (timeout_minutes : Nat) :
    (wait_for_checks_completion obs timeout_minutes = CheckStatus.NO_CHECKS →
      ∃ k, 3 ≤ k ∧ k ≤ timeout_minutes * 60 / 30 ∧
        ((obs k).getD []).isEmpty = true) ∧
    (wait_for_checks_completion obs timeout_minutes = CheckStatus.RUNNING →
      ∀ k, 1 ≤ k → k ≤ timeout_minutes * 60 / 30 →
        nonTerminalAttempt obs k = true) := by
  have h := wait_loop_char obs (timeout_minutes * 60 / check_interval)
    (timeout_minutes * 60 / check_interval) 1 (by omega)
  unfold wait_for_checks_completion
  constructor
  · intro hres
    obtain ⟨k, hk1, hk2, hk3, hk4⟩ := h.1 hres
    exact ⟨k, hk3, hk2, hk4⟩
  · intro hres k hk1 hk2
    exact h.2 hres k hk1 hk2

/-- Witness for C4 (amended): a stream that never shows checks yields
NO_CHECKS at attempt 3 under a 30-minute budget, and yields RUNNING under a
1-minute budget with both attempts non-terminal. -/
theorem wait_for_checks_completion_outcomes_witness :
    (∃ k, 3 ≤ k ∧ k ≤ 30 * 60 / 30 ∧
      ((emptyRollupObs k).getD []).isEmpty = true) ∧
    nonTerminalAttempt emptyRollupObs 2 = true := by
  constructor
  · apply (wait_for_checks_completion_outcomes emptyRollupObs 30).1
    show wait_for_checks_loop emptyRollupObs 60 1 = CheckStatus.NO_CHECKS
    rw [wait_loop_eq_empty_early emptyRollupObs 60 1 (by omega) (by decide) (by omega),
      wait_loop_eq_empty_early emptyRollupObs 60 2 (by omega) (by decide) (by omega),
      wait_loop_eq_nochecks emptyRollupObs 60 3 (by omega) (by decide) (by omega)]
  · apply (wait_for_checks_completion_outcomes emptyRollupObs 1).2 ?_ 2 (by omega) (by omega)
    show wait_for_checks_loop emptyRollupObs 2 1 = CheckStatus.RUNNING
    rw [wait_loop_eq_empty_early emptyRollupObs 2 1 (by omega) (by decide) (by omega),
      wait_loop_eq_empty_early emptyRollupObs 2 2 (by omega) (by decide) (by omega),
      wait_loop_eq_budget_exhausted emptyRollupObs 2 3 (by omega)]

/-! ### CLI clear-state lemmas -/

theorem mem_keys_of_lookup {r : String} {q : RepoQueue} {l : List (String × RepoQueue)}
    (h : lookupQueue r l = some q) : r ∈ l.map Prod.fst :=
  List.mem_map.mpr ⟨(r, q), lookupQueue_mem h, rfl⟩

theorem lookup_of_nodup_mem :
    ∀ {l : List (String × RepoQueue)} {k : String} {v : RepoQueue},
      (l.map Prod.fst).Nodup → (k, v) ∈ l → lookupQueue k l = some v := by
  intro l
  induction l with
  | nil => intro k v _ h; simp at h
  | cons p rest ih =>
    intro k v hnd hmem
    obtain ⟨k', v'⟩ := p
    simp only [List.map_cons, List.nodup_cons] at hnd
    rcases List.mem_cons.mp hmem with heq | hmem2
    · cases heq
      rw [lookupQueue, if_pos rfl]
    · have hkne : k ≠ k' := by
        intro hk
        subst hk
        exact hnd.1 (List.mem_map.mpr ⟨(k, v), hmem2, rfl⟩)
      rw [lookupQueue, if_neg hkne]
      exact ih hnd.2 hmem2

/-- Counting argument: when `completed_repos` is duplicate-free, the queue
keys are unique, the completed-repos invariant holds and the two lists have
equal length, every queue is complete. -/
theorem all_complete_of_counts (s : QueueState)
    (hnd : s.completed_repos.Nodup)
    (hndk : (s.repo_queues.map Prod.fst).Nodup)
    (hinv : completedInvariantB s = true)
    (hlen : s.completed_repos.length = s.repo_queues.length) :
    ∀ p ∈ s.repo_queues, p.2.is_complete = true := by
  intro p hp
  have hsub : s.completed_repos.toFinset ⊆ (s.repo_queues.map Prod.fst).toFinset := by
    intro x hx
    rw [List.mem_toFinset] at hx ⊢
    obtain ⟨q, hq, _⟩ := (completedInvariantB_iff s).mp hinv x hx
    exact mem_keys_of_lookup hq
  have hcard : ((s.repo_queues.map Prod.fst).toFinset).card ≤
      s.completed_repos.toFinset.card := by
    rw [List.toFinset_card_of_nodup hnd, List.toFinset_card_of_nodup hndk,
      List.length_map]
    omega
  have heq := Finset.eq_of_subset_of_card_le hsub hcard
  have hpin : p.1 ∈ s.completed_repos := by
    rw [← List.mem_toFinset, heq, List.mem_toFinset]
    exact List.mem_map.mpr ⟨p, hp, rfl⟩
  obtain ⟨q, hq, hc⟩ := (completedInvariantB_iff s).mp hinv p.1 hpin
  have hl := lookup_of_nodup_mem hndk (show (p.1, p.2) ∈ s.repo_queues from hp)
  rw [hq] at hl
  injection hl with hl
  rw [← hl]
  exact hc

/-- The `cleared` field computed by the CLI, written out. -/
theorem cli_cleared_eq (loaded : Option QueueState) (wid repo : String)
    (all_prs : List PRQueueItem) (now budget : Int) (oracle : List (Int × Bool)) :
    (process_repo_queue_cli loaded wid repo all_prs now budget oracle).cleared =
      (match (process_repo_queue_cli loaded wid repo all_prs now budget oracle).completed with
       | some true =>
         (process_repo_queue_cli loaded wid repo all_prs now budget oracle).state.completed_repos.length ==
           (process_repo_queue_cli loaded wid repo all_prs now budget oracle).state.repo_queues.length
       | _ => false) := rfl

/-- Counterexample for C5: resuming a state whose only queue is complete and
already recorded in `completed_repos` makes `process_repo_queue` return true
and append a duplicate, so the length test fails and `clear_state` is not
called even though every repository queue is complete. -/
theorem clear_state_counterexample :
    (process_repo_queue_cli (some drainedState) "run1" "org/a" [] 0 1000000 []).completed =
      some true ∧
    (process_repo_queue_cli (some drainedState) "run1" "org/a" [] 0 1000000 []).cleared =
      false ∧
    ((process_repo_queue_cli (some drainedState) "run1" "org/a" [] 0 1000000 []).state.repo_queues.all
      fun p => p.2.is_complete) = true := by
  refine ⟨?_, ?_, ?_⟩ <;> decide

/-- C5 (amended): after a CLI invocation, `clear_state` is called iff
`process_repo_queue` returned true and the number of completed-repo entries
equals the number of repository queues; when additionally `completed_repos`
is duplicate-free, queue keys are unique and the completed-repos invariant
holds, that condition does imply that every repository's queue is
complete (the converse fails, per the counterexample). -/
theorem clear_state_iff_counts (loaded : Option QueueState) (wid repo : String)
    (all_prs : List PRQueueItem) (now budget : Int) (oracle : List (Int × Bool)) :
    ((process_repo_queue_cli loaded wid repo all_prs now budget oracle).cleared = true ↔
      ((process_repo_queue_cli loaded wid repo all_prs now budget oracle).completed = some true ∧
        (process_repo_queue_cli loaded wid repo all_prs now budget oracle).state.completed_repos.length =
          (process_repo_queue_cli loaded wid repo all_prs now budget oracle).state.repo_queues.length)) ∧
    ((process_repo_queue_cli loaded wid repo all_prs now budget oracle).state.completed_repos.Nodup →
      ((process_repo_queue_cli loaded wid repo all_prs now budget oracle).state.repo_queues.map Prod.fst).Nodup →
      completedInvariantB (process_repo_queue_cli loaded wid repo all_prs now budget oracle).state = true →
      (process_repo_queue_cli loaded wid repo all_prs now budget oracle).cleared = true →
      ∀ p ∈ (process_repo_queue_cli loaded wid repo all_prs now budget oracle).state.repo_queues,
        p.2.is_complete = true) := by
  have hiff :
      (process_repo_queue_cli loaded wid repo all_prs now budget oracle).cleared = true ↔
        ((process_repo_queue_cli loaded wid repo all_prs now budget oracle).completed = some true ∧
          (process_repo_queue_cli loaded wid repo all_prs now budget oracle).state.completed_repos.length =
            (process_repo_queue_cli loaded wid repo all_prs now budget oracle).state.repo_queues.length) := by
    rw [cli_cleared_eq]
    cases hc : (process_repo_queue_cli loaded wid repo all_prs now budget oracle).completed with
    | none => simp
    | some b => cases b <;> simp
  refine ⟨hiff, ?_⟩
  intro hnd hndk hinv hcl
  obtain ⟨_, hlen⟩ := hiff.mp hcl
  exact all_complete_of_counts _ hnd hndk hinv hlen

/-- Witness for C5 (amended): a fresh single-PR run drains the queue, clears
the state, and indeed leaves the concrete repository queue complete. -/
theorem clear_state_iff_counts_witness :
    (({ prs := [samplePR], current_index := 1 } : RepoQueue).is_complete = true) ∧
    (process_repo_queue_cli none "run1" "org/a" [samplePR] 0 1000000
      [((0 : Int), true)]).cleared = true :=
  ⟨(clear_state_iff_counts none "run1" "org/a" [samplePR] 0 1000000
      [((0 : Int), true)]).2 (by decide) (by decide) (by decide) (by decide)
      ("org/a", { prs := [samplePR], current_index := 1 }) (by decide),
   by decide⟩

/-- C6: at the start of every invocation, a loaded state whose workflow-run
identifier differs from the current one is discarded for a fresh saved
state; a matching identifier resumes the loaded state; no state also means
a fresh saved state. -/
theorem cli_discards_stale_state (loaded : Option QueueState) (runId : String)
    (repo_prs : List PRQueueItem) (now budget : Int) :
    (∀ s, loaded = some s → s.workflow_run_id ≠ runId →
      cli_load_or_create loaded runId repo_prs now budget =
        (create_initial_state runId repo_prs now budget, true)) ∧
    (∀ s, loaded = some s → s.workflow_run_id = runId →
      cli_load_or_create loaded runId repo_prs now budget = (s, false)) ∧
    (loaded = none →
      cli_load_or_create loaded runId repo_prs now budget =
        (create_initial_state runId repo_prs now budget, true)) := by
  refine ⟨?_, ?_, ?_⟩
  · intro s h hne; subst h; simp [cli_load_or_create, hne]
  · intro s h he; subst h; simp [cli_load_or_create, he]
  · intro h; subst h; simp [cli_load_or_create]

/-- Witness for C6: a stale run id is discarded for a fresh saved state; a
matching run id resumes the loaded state. -/
theorem cli_discards_stale_state_witness :
    cli_load_or_create (some drainedState) "run2" [] 0 5 =
      (create_initial_state "run2" [] 0 5, true) ∧
    cli_load_or_create (some drainedState) "run1" [] 0 5 = (drainedState, false) :=
  ⟨(cli_discards_stale_state (some drainedState) "run2" [] 0 5).1 drainedState rfl
      (by decide),
   (cli_discards_stale_state (some drainedState) "run1" [] 0 5).2.1 drainedState rfl rfl⟩

/-- C7: `trigger_rebase` dispatches on the PR author — Dependabot gets the
magic comment and succeeds iff it was posted, pre-commit.ci gets the manual
git rebase, and any other author fails immediately with no external
command issued. -/
theorem trigger_rebase_dispatch (env : GhEnv) (gh_token : String) (pr : PRQueueItem) :
    (pr.pr_author = "app/dependabot" →
      (trigger_rebase env gh_token pr).1 = [dependabotRebaseCmd pr] ∧
      ((trigger_rebase env gh_token pr).2 = true ↔
        ∃ out, env.run (dependabotRebaseCmd pr) = some out)) ∧
    (pr.pr_author = "app/pre-commit-ci" →
      trigger_rebase env gh_token pr = manual_rebase env gh_token pr) ∧
    (pr.pr_author ≠ "app/dependabot" → pr.pr_author ≠ "app/pre-commit-ci" →
      trigger_rebase env gh_token pr = ([], false)) := by
  refine ⟨?_, ?_, ?_⟩
  · intro h
    unfold trigger_rebase
    rw [if_pos h]
    cases hc : env.run (dependabotRebaseCmd pr) with
    | none => simp [hc]
    | some out => simp [hc]
  · intro h
    have hne : pr.pr_author ≠ "app/dependabot" := by rw [h]; decide
    unfold trigger_rebase
    rw [if_neg hne, if_pos h]
  · intro h1 h2
    unfold trigger_rebase
    rw [if_neg h1, if_neg h2]

/-- Witness for C7: concrete dispatch on all three author kinds under an
always-succeeding command environment. -/
theorem trigger_rebase_dispatch_witness :
    ((trigger_rebase okEnv "tok" samplePR).1 = [dependabotRebaseCmd samplePR] ∧
      ((trigger_rebase okEnv "tok" samplePR).2 = true ↔
        ∃ out, okEnv.run (dependabotRebaseCmd samplePR) = some out)) ∧
    trigger_rebase okEnv "tok" precommitPR = manual_rebase okEnv "tok" precommitPR ∧
    trigger_rebase okEnv "tok" otherAuthorPR = ([], false) :=
  ⟨(trigger_rebase_dispatch okEnv "tok" samplePR).1 rfl,
   (trigger_rebase_dispatch okEnv "tok" precommitPR).2.1 rfl,
   (trigger_rebase_dispatch okEnv "tok" otherAuthorPR).2.2 (by decide) (by decide)⟩

end BotMaintain
